import Mathlib

/-!
Verification of the PingRank poller (src/PingRank.py).

The program is a single infinite control loop:

    while True:
        for url in urls:
            response = requests.get(url)
            if response.status_code == 200:
                print(response.json())
            else:
                print(f"Failed to retrieve data from {url}. Status code: {response.status_code}")
        time.sleep(240)

We embed it as a deterministic trace-producing function over a stream of
fetch outcomes (one outcome per GET request, indexed by request number),
together with the two-state Fetching/Sleeping step relation described by
the specification.  JSON decoding (`response.json()` of the external
`requests` library) is modelled by an executable fuel-based JSON parser.
-/

namespace PingRank

/-- Modelled from the spec: JSON values as decoded by `response.json()`
(the external `requests` library's JSON decoder, not part of this
repository).  The body of a 200 response is "treated as an arbitrary JSON
value". -/
inductive Json where
  | null
  | bool (b : Bool)
  | num (n : Int)
  | str (s : String)
  | arr (xs : List Json)
  | obj (fields : List (String × Json))

/-- Skip JSON whitespace. -/
def skipWs : List Char → List Char
  | [] => []
  | c :: cs => if c = ' ' ∨ c = '\t' ∨ c = '\n' ∨ c = '\r' then skipWs cs else c :: cs

/-- Accumulate decimal digits into a natural number. -/
def digitsToNat (acc : Nat) : List Char → Nat × List Char
  | [] => (acc, [])
  | c :: cs => if c.isDigit then digitsToNat (acc * 10 + (c.toNat - 48)) cs else (acc, c :: cs)

/-- Parse a nonempty run of decimal digits. -/
def parseNum : List Char → Option (Nat × List Char)
  | [] => none
  | c :: cs => if c.isDigit then some (digitsToNat 0 (c :: cs)) else none

/-- Parse the body of a JSON string after the opening quote (no escapes). -/
def parseStringBody : List Char → Option (List Char × List Char)
  | [] => none
  | c :: cs =>
    if c = '\x22' then some ([], cs)
    else
      match parseStringBody cs with
      | some (s, rest) => some (c :: s, rest)
      | none => none

/-- Intermediate results of the recursive-descent JSON parser. -/
inductive PTree where
  | v (j : Json)
  | es (xs : List Json)
  | ms (fields : List (String × Json))

/-- Parser modes: a single value, the elements of an array after `[`,
or the members of an object after the opening brace. -/
inductive PMode where
  | val
  | elems
  | members

/-- Modelled from the spec: fuel-indexed recursive-descent JSON parser,
standing in for the external library's JSON decoder. -/
def parseF : Nat → PMode → List Char → Option (PTree × List Char)
  | 0, _, _ => none
  | fuel + 1, PMode.val, cs =>
    match skipWs cs with
    | 'n' :: 'u' :: 'l' :: 'l' :: rest => some (PTree.v Json.null, rest)
    | 't' :: 'r' :: 'u' :: 'e' :: rest => some (PTree.v (Json.bool true), rest)
    | 'f' :: 'a' :: 'l' :: 's' :: 'e' :: rest => some (PTree.v (Json.bool false), rest)
    | '\x22' :: rest =>
      match parseStringBody rest with
      | some (s, rest2) => some (PTree.v (Json.str (String.mk s)), rest2)
      | none => none
    | '[' :: rest =>
      match skipWs rest with
      | ']' :: rest2 => some (PTree.v (Json.arr []), rest2)
      | rest2 =>
        match parseF fuel PMode.elems rest2 with
        | some (PTree.es xs, rest3) => some (PTree.v (Json.arr xs), rest3)
        | _ => none
    | '\x7b' :: rest =>
      match skipWs rest with
      | '\x7d' :: rest2 => some (PTree.v (Json.obj []), rest2)
      | rest2 =>
        match parseF fuel PMode.members rest2 with
        | some (PTree.ms ms, rest3) => some (PTree.v (Json.obj ms), rest3)
        | _ => none
    | '-' :: rest =>
      match parseNum rest with
      | some (n, rest2) => some (PTree.v (Json.num (-(n : Int))), rest2)
      | none => none
    | cs2 =>
      match parseNum cs2 with
      | some (n, rest) => some (PTree.v (Json.num (n : Int)), rest)
      | none => none
  | fuel + 1, PMode.elems, cs =>
    match parseF fuel PMode.val cs with
    | some (PTree.v v, rest) =>
      (match skipWs rest with
      | ',' :: rest2 =>
        match parseF fuel PMode.elems rest2 with
        | some (PTree.es xs, rest3) => some (PTree.es (v :: xs), rest3)
        | _ => none
      | ']' :: rest2 => some (PTree.es [v], rest2)
      | _ => none)
    | _ => none
  | fuel + 1, PMode.members, cs =>
    match skipWs cs with
    | '\x22' :: rest =>
      (match parseStringBody rest with
      | some (key, rest2) =>
        (match skipWs rest2 with
        | ':' :: rest3 =>
          (match parseF fuel PMode.val rest3 with
          | some (PTree.v v, rest4) =>
            (match skipWs rest4 with
            | ',' :: rest5 =>
              (match parseF fuel PMode.members rest5 with
              | some (PTree.ms ms, rest6) => some (PTree.ms ((String.mk key, v) :: ms), rest6)
              | _ => none)
            | '\x7d' :: rest5 => some (PTree.ms [(String.mk key, v)], rest5)
            | _ => none)
          | _ => none)
        | _ => none)
      | none => none)
    | _ => none

/-- Modelled from the spec: `Json.parse` decodes a whole response body,
as `response.json()` does; `none` is the decode error the spec says is
"not classified or recovered in the original". -/
def Json.parse (s : String) : Option Json :=
  match parseF (2 * s.length + 2) PMode.val s.data with
  | some (PTree.v v, rest) => if skipWs rest = [] then some v else none
  | _ => none

/-- First target URL of the fixed list in src/PingRank.py. -/
def url1 : String := "https://f0rest-rank-api.glitch.me/getRank/olofmeister"

/-- Second target URL of the fixed list in src/PingRank.py. -/
def url2 : String := "https://f0rest-rank-api.glitch.me/getRank/f0rest"

/-- The fixed ordered target list `urls` of src/PingRank.py. -/
def urls : List String := [url1, url2]

/-- An HTTP response: status code and body, as used by the loop. -/
structure Response where
  status_code : Nat
  body : String

/-- Outcome of one `requests.get(url)` call: either a response, or a
transport-level error (which the program does not catch). -/
inductive FetchOutcome where
  | response (r : Response)
  | transportError

/-- One printed line: the decoded JSON structure (200 branch) or the
formatted failure string (non-200 branch). -/
inductive OutputLine where
  | json (v : Json)
  | failure (msg : String)

/-- The unhandled exceptions that can escape the per-URL step. -/
inductive ProgError where
  | transport
  | jsonDecode

/-- The failure diagnostic of line 15 of src/PingRank.py:
`f"Failed to retrieve data from {url}. Status code: {response.status_code}"`. -/
def failureMessage (url : String) (code : Nat) : String :=
  "Failed to retrieve data from " ++ url ++ ". Status code: " ++ toString code

/-- The body of the `for` loop for one URL (lines 11-15 of
src/PingRank.py): issue the GET, and on a response dispatch on
`status_code == 200`; JSON decoding happens only in the 200 branch, and
a decode failure (like a transport failure) is an uncaught error. -/
def fetchStep (url : String) (o : FetchOutcome) : Except ProgError OutputLine :=
  match o with
  | FetchOutcome.transportError => Except.error ProgError.transport
  | FetchOutcome.response r =>
    if r.status_code = 200 then
      match Json.parse r.body with
      | some v => Except.ok (OutputLine.json v)
      | none => Except.error ProgError.jsonDecode
    else
      Except.ok (OutputLine.failure (failureMessage url r.status_code))

/-- Observable events of a run: a GET request being issued, a line being
printed, and the `time.sleep(240)` call. -/
inductive Event where
  | request (url : String)
  | output (line : OutputLine)
  | sleep (seconds : Nat)

/-- Result of running a portion of the program: the event trace emitted,
the uncaught error if one aborted the run, and the index of the next GET
request in the response stream. -/
structure RunResult where
  trace : List Event
  err : Option ProgError
  next : Nat

/-- The `for url in urls` loop (lines 10-15): process the URLs in list
order, one GET and one output line per URL, consuming the response
stream `resp` from index `k`; an uncaught error aborts the loop after
the offending request with no output line for it. -/
def processUrls (resp : Nat → FetchOutcome) : List String → Nat → RunResult
  | [], k => ⟨[], none, k⟩
  | u :: rest, k =>
    match fetchStep u (resp k) with
    | Except.ok line =>
      let r := processUrls resp rest (k + 1)
      ⟨Event.request u :: Event.output line :: r.trace, r.err, r.next⟩
    | Except.error e => ⟨[Event.request u], some e, k + 1⟩

/-- One iteration of `while True` (lines 9-17): a full pass over `urls`
followed by `time.sleep(240)`; the sleep happens only if no uncaught
error aborted the pass. -/
def runCycleFrom (resp : Nat → FetchOutcome) (k : Nat) : RunResult :=
  let r := processUrls resp urls k
  match r.err with
  | none => ⟨r.trace ++ [Event.sleep 240], none, r.next⟩
  | some e => ⟨r.trace, some e, r.next⟩

/-- The first `n` iterations of the `while True` loop, starting from
program start; an uncaught error stops the whole process, so later
cycles add nothing once `err` is set. -/
def runCycles (resp : Nat → FetchOutcome) : Nat → RunResult
  | 0 => ⟨[], none, 0⟩
  | n + 1 =>
    let r := runCycles resp n
    match r.err with
    | some _ => r
    | none =>
      let c := runCycleFrom resp r.next
      ⟨r.trace ++ c.trace, c.err, c.next⟩

/-- A fetch outcome the program handles without an uncaught exception:
an actual response that is either non-200, or 200 with a decodable
body. -/
def handled : FetchOutcome → Bool
  | FetchOutcome.transportError => false
  | FetchOutcome.response r =>
    if r.status_code = 200 then (Json.parse r.body).isSome else true

/-- The printed lines of a trace, in order. -/
def outputsOf (tr : List Event) : List OutputLine :=
  tr.filterMap fun e =>
    match e with
    | Event.output l => some l
    | _ => none

/-- The two control states of the spec's state machine: Fetching
(iterating the URL list, with the URLs still to process) and Sleeping
(between cycles). -/
inductive PState where
  | fetching (remaining : List String)
  | sleeping

/-- The step relation of the control loop: process the next URL, finish
the pass and go to sleep, or wake up into a fresh pass over `urls`.
There is no terminal state. -/
inductive PStep : PState → PState → Prop where
  | fetchNext (u : String) (rest : List String) :
      PStep (PState.fetching (u :: rest)) (PState.fetching rest)
  | finishCycle : PStep (PState.fetching []) PState.sleeping
  | wake : PStep PState.sleeping (PState.fetching urls)

/-- A concrete response stream where every request yields a 404. -/
def respConst404 : Nat → FetchOutcome :=
  fun _ => FetchOutcome.response ⟨404, ""⟩

/-- A concrete response stream where every request raises a transport
error. -/
def respErr : Nat → FetchOutcome :=
  fun _ => FetchOutcome.transportError

/-- Unfolding lemma: the per-URL loop on a cons, successful step. -/
lemma processUrls_cons_ok {resp : Nat → FetchOutcome} {u : String} {rest : List String}
    {k : Nat} {line : OutputLine} (hf : fetchStep u (resp k) = Except.ok line) :
    processUrls resp (u :: rest) k =
      ⟨Event.request u :: Event.output line :: (processUrls resp rest (k + 1)).trace,
       (processUrls resp rest (k + 1)).err, (processUrls resp rest (k + 1)).next⟩ := by
  simp [processUrls, hf]

/-- Unfolding lemma: the per-URL loop on a cons, uncaught error. -/
lemma processUrls_cons_err {resp : Nat → FetchOutcome} {u : String} {rest : List String}
    {k : Nat} {e : ProgError} (hf : fetchStep u (resp k) = Except.error e) :
    processUrls resp (u :: rest) k = ⟨[Event.request u], some e, k + 1⟩ := by
  simp [processUrls, hf]

/-- A handled outcome makes the per-URL step succeed with some line. -/
lemma fetchStep_ok_of_handled (url : String) (o : FetchOutcome) (h : handled o = true) :
    ∃ line, fetchStep url o = Except.ok line := by
  cases o with
  | transportError => simp [handled] at h
  | response r =>
    by_cases hs : r.status_code = 200
    · simp only [handled, hs, if_pos] at h
      obtain ⟨v, hv⟩ := Option.isSome_iff_exists.mp h
      exact ⟨OutputLine.json v, by simp [fetchStep, hs, hv]⟩
    · exact ⟨OutputLine.failure (failureMessage url r.status_code), by simp [fetchStep, hs]⟩

/-- A full cycle whose two fetches both succeed: five events then stop. -/
lemma runCycleFrom_ok {resp : Nat → FetchOutcome} {k : Nat} {l1 l2 : OutputLine}
    (h1 : fetchStep url1 (resp k) = Except.ok l1)
    (h2 : fetchStep url2 (resp (k + 1)) = Except.ok l2) :
    runCycleFrom resp k =
      ⟨[Event.request url1, Event.output l1, Event.request url2, Event.output l2,
        Event.sleep 240], none, k + 2⟩ := by
  simp [runCycleFrom, urls, processUrls, h1, h2]

/-- Unfolding lemma: one more cycle after an error-free run. -/
lemma runCycles_succ_none {resp : Nat → FetchOutcome} {n : Nat}
    (he : (runCycles resp n).err = none) :
    runCycles resp (n + 1) =
      ⟨(runCycles resp n).trace ++ (runCycleFrom resp (runCycles resp n).next).trace,
       (runCycleFrom resp (runCycles resp n).next).err,
       (runCycleFrom resp (runCycles resp n).next).next⟩ := by
  simp only [runCycles]
  rw [he]

/-- Unfolding lemma: once an uncaught error has aborted the process,
later cycles add nothing. -/
lemma runCycles_succ_some {resp : Nat → FetchOutcome} {n : Nat} {e : ProgError}
    (he : (runCycles resp n).err = some e) :
    runCycles resp (n + 1) = runCycles resp n := by
  simp only [runCycles]
  rw [he]

/-- With every outcome handled, a run never errors and issues two
requests per cycle. -/
lemma runCycles_ok {resp : Nat → FetchOutcome} (h : ∀ k, handled (resp k) = true) :
    ∀ n, (runCycles resp n).err = none ∧ (runCycles resp n).next = 2 * n := by
  intro n
  induction n with
  | zero => exact ⟨rfl, rfl⟩
  | succ n ih =>
    obtain ⟨he, hn⟩ := ih
    obtain ⟨l1, h1⟩ := fetchStep_ok_of_handled url1 (resp (2 * n)) (h _)
    obtain ⟨l2, h2⟩ := fetchStep_ok_of_handled url2 (resp (2 * n + 1)) (h _)
    rw [runCycles_succ_none he, hn, runCycleFrom_ok h1 h2]
    refine ⟨rfl, ?_⟩
    show 2 * n + 2 = 2 * (n + 1)
    omega

/-- With every outcome handled, each cycle appends exactly the events
request-output-request-output-sleep to the trace so far. -/
lemma cycle_extend {resp : Nat → FetchOutcome} (h : ∀ k, handled (resp k) = true) (n : Nat) :
    ∃ l1 l2,
      (runCycles resp (n + 1)).trace =
        (runCycles resp n).trace ++
          [Event.request url1, Event.output l1, Event.request url2, Event.output l2,
           Event.sleep 240] ∧
      (runCycles resp (n + 1)).err = none := by
  obtain ⟨he, hn⟩ := runCycles_ok h n
  obtain ⟨l1, h1⟩ := fetchStep_ok_of_handled url1 (resp (2 * n)) (h _)
  obtain ⟨l2, h2⟩ := fetchStep_ok_of_handled url2 (resp (2 * n + 1)) (h _)
  refine ⟨l1, l2, ?_, ?_⟩ <;> rw [runCycles_succ_none he, hn, runCycleFrom_ok h1 h2]

/-- Each successive cycle only ever appends events to the trace. -/
lemma runCycles_extend (resp : Nat → FetchOutcome) (n : Nat) :
    ∃ s, (runCycles resp (n + 1)).trace = (runCycles resp n).trace ++ s := by
  cases he : (runCycles resp n).err with
  | none =>
    exact ⟨(runCycleFrom resp (runCycles resp n).next).trace, by rw [runCycles_succ_none he]⟩
  | some e =>
    exact ⟨[], by rw [runCycles_succ_some he, List.append_nil]⟩

/-- The trace after `n + d` cycles extends the trace after `n` cycles. -/
lemma runCycles_extend_add (resp : Nat → FetchOutcome) (n : Nat) :
    ∀ d, ∃ s, (runCycles resp (n + d)).trace = (runCycles resp n).trace ++ s := by
  intro d
  induction d with
  | zero => exact ⟨[], (List.append_nil _).symm⟩
  | succ d ih =>
    obtain ⟨s, hs⟩ := ih
    obtain ⟨s2, hs2⟩ := runCycles_extend resp (n + d)
    refine ⟨s ++ s2, ?_⟩
    have h3 : (runCycles resp (n + (d + 1))).trace = (runCycles resp ((n + d) + 1)).trace := rfl
    rw [h3, hs2, hs, List.append_assoc]

/-- Once the run has aborted with an uncaught error, it stays aborted
with an unchanged result. -/
lemma runCycles_stuck {resp : Nat → FetchOutcome} {n : Nat} {e : ProgError}
    (he : (runCycles resp n).err = some e) :
    ∀ d, runCycles resp (n + d) = runCycles resp n := by
  intro d
  induction d with
  | zero => rfl
  | succ d ih =>
    have he2 : (runCycles resp (n + d)).err = some e := by rw [ih]; exact he
    have h3 : runCycles resp (n + (d + 1)) = runCycles resp ((n + d) + 1) := rfl
    rw [h3, runCycles_succ_some he2, ih]

/-- The per-URL loop never rewinds the request counter. -/
lemma processUrls_next_ge (resp : Nat → FetchOutcome) :
    ∀ (us : List String) (k : Nat), k ≤ (processUrls resp us k).next := by
  intro us
  induction us with
  | nil => intro k; exact Nat.le_refl k
  | cons u rest ih =>
    intro k
    cases hf : fetchStep u (resp k) with
    | ok line =>
      rw [processUrls_cons_ok hf]
      exact Nat.le_trans (Nat.le_succ k) (ih (k + 1))
    | error e =>
      rw [processUrls_cons_err hf]
      exact Nat.le_succ k

/-- A nonempty URL list issues at least one request. -/
lemma processUrls_next_gt (resp : Nat → FetchOutcome) (u : String) (rest : List String)
    (k : Nat) : k < (processUrls resp (u :: rest) k).next := by
  cases hf : fetchStep u (resp k) with
  | ok line =>
    rw [processUrls_cons_ok hf]
    exact Nat.lt_of_lt_of_le (Nat.lt_succ_self k) (processUrls_next_ge resp rest (k + 1))
  | error e =>
    rw [processUrls_cons_err hf]
    exact Nat.lt_succ_self k

/-- The per-URL loop depends only on the responses it actually
receives: two streams agreeing on the consumed indices give identical
results. -/
lemma processUrls_agree {r1 r2 : Nat → FetchOutcome} :
    ∀ (us : List String) (k : Nat),
      (∀ j, k ≤ j → j < (processUrls r1 us k).next → r1 j = r2 j) →
      processUrls r1 us k = processUrls r2 us k := by
  intro us
  induction us with
  | nil => intro k _; rfl
  | cons u rest ih =>
    intro k h
    have hk : r1 k = r2 k := h k (Nat.le_refl k) (processUrls_next_gt r1 u rest k)
    cases hf : fetchStep u (r1 k) with
    | ok line =>
      have hf2 : fetchStep u (r2 k) = Except.ok line := by rw [← hk]; exact hf
      have hrest : processUrls r1 rest (k + 1) = processUrls r2 rest (k + 1) := by
        apply ih
        intro j hj1 hj2
        apply h j (Nat.le_trans (Nat.le_succ k) hj1)
        rw [processUrls_cons_ok hf]
        exact hj2
      rw [processUrls_cons_ok hf, processUrls_cons_ok hf2, hrest]
    | error e =>
      have hf2 : fetchStep u (r2 k) = Except.error e := by rw [← hk]; exact hf
      rw [processUrls_cons_err hf, processUrls_cons_err hf2]

/-- The sleep branch does not consume responses: a cycle's final request
counter is that of its URL pass. -/
lemma runCycleFrom_next (resp : Nat → FetchOutcome) (k : Nat) :
    (runCycleFrom resp k).next = (processUrls resp urls k).next := by
  cases he : (processUrls resp urls k).err <;> simp [runCycleFrom, he]

/-- A full cycle depends only on the responses it actually receives. -/
lemma runCycleFrom_agree {r1 r2 : Nat → FetchOutcome} {k : Nat}
    (h : ∀ j, k ≤ j → j < (runCycleFrom r1 k).next → r1 j = r2 j) :
    runCycleFrom r1 k = runCycleFrom r2 k := by
  have hp : processUrls r1 urls k = processUrls r2 urls k := by
    apply processUrls_agree
    intro j hj1 hj2
    apply h j hj1
    rw [runCycleFrom_next]
    exact hj2
  simp [runCycleFrom, hp]

/-- The request counter never decreases from cycle to cycle. -/
lemma runCycles_next_mono (resp : Nat → FetchOutcome) (n : Nat) :
    (runCycles resp n).next ≤ (runCycles resp (n + 1)).next := by
  cases he : (runCycles resp n).err with
  | some e => rw [runCycles_succ_some he]
  | none =>
    rw [runCycles_succ_none he]
    show (runCycles resp n).next ≤ (runCycleFrom resp (runCycles resp n).next).next
    rw [runCycleFrom_next]
    exact processUrls_next_ge resp urls _

/-- A whole run depends only on the responses it actually receives. -/
lemma runCycles_agree {r1 r2 : Nat → FetchOutcome} :
    ∀ n, (∀ j, j < (runCycles r1 n).next → r1 j = r2 j) →
      runCycles r1 n = runCycles r2 n := by
  intro n
  induction n with
  | zero => intro _; rfl
  | succ n ih =>
    intro h
    have hmono := runCycles_next_mono r1 n
    have heq : runCycles r1 n = runCycles r2 n :=
      ih (fun j hj => h j (Nat.lt_of_lt_of_le hj hmono))
    cases he : (runCycles r1 n).err with
    | some e =>
      have he2 : (runCycles r2 n).err = some e := by rw [← heq]; exact he
      rw [runCycles_succ_some he, runCycles_succ_some he2, heq]
    | none =>
      have he2 : (runCycles r2 n).err = none := by rw [← heq]; exact he
      have hcf : runCycleFrom r1 (runCycles r1 n).next = runCycleFrom r2 (runCycles r1 n).next := by
        apply runCycleFrom_agree
        intro j _ hj2
        apply h j
        rw [runCycles_succ_none he]
        exact hj2
      rw [runCycles_succ_none he, runCycles_succ_none he2, ← heq, hcf]

/-- C1: for every URL in the target list, a 200 response is decoded as
JSON and the decoded value is the output line for that URL; in
particular a 200 response with body `{"rank": 5}` (braces escaped as
`\x7b`/`\x7d`) produces exactly the decoded mapping with the single
field `rank ↦ 5`, a value-equal round-trip. -/
theorem json_roundtrip_on_200 :
    (∀ url, url ∈ urls → ∀ body v, Json.parse body = some v →
      fetchStep url (FetchOutcome.response ⟨200, body⟩) = Except.ok (OutputLine.json v)) ∧
    Json.parse "\x7b\x22rank\x22: 5\x7d" = some (Json.obj [("rank", Json.num 5)]) := by
  constructor
  · intro url _ body v hv
    simp [fetchStep, hv]
  · rfl

/-- Witness for C1: the first target URL with a 200 response carrying
body `{"rank": 5}` outputs the decoded one-field mapping. -/
theorem json_roundtrip_on_200_witness :
    fetchStep url1 (FetchOutcome.response ⟨200, "\x7b\x22rank\x22: 5\x7d"⟩)
      = Except.ok (OutputLine.json (Json.obj [("rank", Json.num 5)])) :=
  json_roundtrip_on_200.1 url1 (List.Mem.head _) _ _ json_roundtrip_on_200.2

/-- C2: for every URL and every non-200 status code, the step does not
attempt JSON parsing (the result is the same for every body, including
undecodable ones, and is never a decode error) and produces exactly the
diagnostic line `Failed to retrieve data from {url}. Status code:
{code}` containing the literal URL and the literal status code. -/
theorem non200_diagnostic_line :
    ∀ (url : String) (code : Nat) (body : String), code ≠ 200 →
      fetchStep url (FetchOutcome.response ⟨code, body⟩)
        = Except.ok (OutputLine.failure
            ("Failed to retrieve data from " ++ url ++ ". Status code: " ++ toString code)) := by
  intro url code body hc
  simp [fetchStep, hc, failureMessage]

/-- Witness for C2: a 404 on the first URL with an undecodable body
still yields the diagnostic line, with no parse attempt. -/
theorem non200_diagnostic_line_witness :
    fetchStep url1 (FetchOutcome.response ⟨404, "not json"⟩)
      = Except.ok (OutputLine.failure
          ("Failed to retrieve data from " ++ url1 ++ ". Status code: " ++ toString 404)) :=
  non200_diagnostic_line url1 404 "not json" (by decide)

/-- C3: a cycle whose fetches succeed issues exactly one GET per URL of
the fixed list and produces exactly one output line per URL, in list
order, the output for URL 1 coming before the request for URL 2, and
the next request index advancing by exactly two. -/
theorem cycle_order_and_counts :
    ∀ (resp : Nat → FetchOutcome) (k : Nat) (l1 l2 : OutputLine),
      fetchStep url1 (resp k) = Except.ok l1 →
      fetchStep url2 (resp (k + 1)) = Except.ok l2 →
      processUrls resp urls k =
        ⟨[Event.request url1, Event.output l1, Event.request url2, Event.output l2],
         none, k + 2⟩ := by
  intro resp k l1 l2 h1 h2
  simp [processUrls, urls, h1, h2]

/-- Witness for C3: with 404 responses everywhere, one pass gives
request-output-request-output in list order and consumes two
responses. -/
theorem cycle_order_and_counts_witness :
    processUrls respConst404 urls 0 =
      ⟨[Event.request url1, Event.output (OutputLine.failure (failureMessage url1 404)),
        Event.request url2, Event.output (OutputLine.failure (failureMessage url2 404))],
       none, 2⟩ :=
  cycle_order_and_counts respConst404 0 _ _ rfl rfl

/-- C7: a JSON decode failure on a 200 response is not caught anywhere:
the per-URL step surfaces it as an uncaught error, not as any printed
line. -/
theorem json_error_unhandled :
    ∀ (url body : String), Json.parse body = none →
      fetchStep url (FetchOutcome.response ⟨200, body⟩)
        = Except.error ProgError.jsonDecode := by
  intro url body hb
  simp [fetchStep, hb]

/-- Witness for C7: the malformed body `not json` on a 200 response
escapes the first URL's step as an uncaught decode error. -/
theorem json_error_unhandled_witness :
    fetchStep url1 (FetchOutcome.response ⟨200, "not json"⟩)
      = Except.error ProgError.jsonDecode :=
  json_error_unhandled url1 "not json" rfl

/-- C4: after the last URL of a cycle is processed, the program sleeps
for exactly 240 seconds before the next cycle: with every outcome
handled, each cycle appends its two request/output pairs followed by
`sleep 240` and nothing else, so applying this at `n` and `n + 1` puts
the `sleep 240` event of cycle `n` immediately before the first request
of cycle `n + 1`, with no request in between. -/
theorem sleep_between_cycles :
    ∀ (resp : Nat → FetchOutcome), (∀ k, handled (resp k) = true) →
      ∀ n, ∃ l1 l2,
        (runCycles resp (n + 1)).trace =
          (runCycles resp n).trace ++
            [Event.request url1, Event.output l1, Event.request url2, Event.output l2,
             Event.sleep 240] ∧
        (runCycles resp (n + 1)).err = none := by
  intro resp h n
  exact cycle_extend h n

/-- Witness for C4: with 404 responses everywhere, the first cycle's
trace is the empty start trace followed by the pass and the sleep. -/
theorem sleep_between_cycles_witness :
    ∃ l1 l2,
      (runCycles respConst404 1).trace =
        (runCycles respConst404 0).trace ++
          [Event.request url1, Event.output l1, Event.request url2, Event.output l2,
           Event.sleep 240] ∧
      (runCycles respConst404 1).err = none :=
  sleep_between_cycles respConst404 (fun _ => rfl) 0

/-- C5: the polling loop never terminates on its own: every state of
the Fetching/Sleeping step relation has a successor (there is no
terminal state), and with every outcome handled, after any number of
completed cycles the run has not aborted and the next cycle still adds
its five events. -/
theorem loop_never_terminates :
    (∀ s : PState, ∃ t, PStep s t) ∧
    (∀ (resp : Nat → FetchOutcome), (∀ k, handled (resp k) = true) →
      ∀ n, (runCycles resp n).err = none ∧
        (runCycles resp (n + 1)).trace.length = (runCycles resp n).trace.length + 5) := by
  constructor
  · intro s
    cases s with
    | fetching rem =>
      cases rem with
      | nil => exact ⟨PState.sleeping, PStep.finishCycle⟩
      | cons u rest => exact ⟨PState.fetching rest, PStep.fetchNext u rest⟩
    | sleeping => exact ⟨PState.fetching urls, PStep.wake⟩
  · intro resp h n
    refine ⟨(runCycles_ok h n).1, ?_⟩
    obtain ⟨l1, l2, ht, _⟩ := cycle_extend h n
    rw [ht]
    simp

/-- Witness for C5: the Sleeping state has a successor, and after two
cycles of 404 responses the run has not aborted. -/
theorem loop_never_terminates_witness :
    (∃ t, PStep PState.sleeping t) ∧ (runCycles respConst404 2).err = none :=
  ⟨loop_never_terminates.1 PState.sleeping,
   (loop_never_terminates.2 respConst404 (fun _ => rfl) 2).1⟩

/-- C6: a non-200 status is recovered locally: a cycle whose first URL
gets a non-200 response still prints the diagnostic line, then issues
the GET for the second URL, prints its line, and reaches the sleep with
no error; and a run fed only non-200 responses never aborts, in any
cycle. -/
theorem non200_recovered_locally :
    (∀ (resp : Nat → FetchOutcome) (k code : Nat) (body : String) (l2 : OutputLine),
      code ≠ 200 →
      resp k = FetchOutcome.response ⟨code, body⟩ →
      fetchStep url2 (resp (k + 1)) = Except.ok l2 →
      runCycleFrom resp k =
        ⟨[Event.request url1,
          Event.output (OutputLine.failure (failureMessage url1 code)),
          Event.request url2, Event.output l2, Event.sleep 240], none, k + 2⟩) ∧
    (∀ (resp : Nat → FetchOutcome),
      (∀ k, ∃ code body, code ≠ 200 ∧ resp k = FetchOutcome.response ⟨code, body⟩) →
      ∀ n, (runCycles resp n).err = none) := by
  constructor
  · intro resp k code body l2 hc hr h2
    have h1 : fetchStep url1 (resp k) =
        Except.ok (OutputLine.failure (failureMessage url1 code)) := by
      rw [hr]
      simp [fetchStep, hc]
    exact runCycleFrom_ok h1 h2
  · intro resp h n
    have hh : ∀ k, handled (resp k) = true := by
      intro k
      obtain ⟨code, body, hc, hr⟩ := h k
      rw [hr]
      simp [handled, hc]
    exact (runCycles_ok hh n).1

/-- Witness for C6: a 404 on the first URL still lets the second URL be
fetched and the sleep be reached, and an all-404 run never aborts. -/
theorem non200_recovered_locally_witness :
    runCycleFrom respConst404 0 =
      ⟨[Event.request url1,
        Event.output (OutputLine.failure (failureMessage url1 404)),
        Event.request url2,
        Event.output (OutputLine.failure (failureMessage url2 404)),
        Event.sleep 240], none, 2⟩ ∧
    (runCycles respConst404 3).err = none :=
  ⟨non200_recovered_locally.1 respConst404 0 404 "" _ (by decide) rfl rfl,
   non200_recovered_locally.2 respConst404 (fun _ => ⟨404, "", by decide, rfl⟩) 3⟩

/-- C8: the program is deterministic in its environment: two runs whose
response streams agree on every request actually issued produce the
same result, in particular the same output lines in the same order. -/
theorem run_deterministic :
    ∀ (r1 r2 : Nat → FetchOutcome) (n : Nat),
      (∀ j, j < (runCycles r1 n).next → r1 j = r2 j) →
      (runCycles r1 n).trace = (runCycles r2 n).trace ∧
      outputsOf (runCycles r1 n).trace = outputsOf (runCycles r2 n).trace := by
  intro r1 r2 n h
  rw [runCycles_agree n h]
  exact ⟨rfl, rfl⟩

/-- Witness for C8: a run of one cycle against the all-404 stream and
against a stream that differs only from the third request onward (an
index never reached in one cycle) produce identical traces and output
lines. -/
theorem run_deterministic_witness :
    (runCycles respConst404 1).trace =
      (runCycles (fun k => if k < 2 then respConst404 k else FetchOutcome.transportError)
        1).trace ∧
    outputsOf (runCycles respConst404 1).trace =
      outputsOf
        ((runCycles (fun k => if k < 2 then respConst404 k else FetchOutcome.transportError)
          1).trace) :=
  run_deterministic respConst404
    (fun k => if k < 2 then respConst404 k else FetchOutcome.transportError) 1
    (fun j hj => by
      have hj2 : j < 2 := hj
      simp [hj2])

/-- C9: an uncaught error aborts mid-cycle: if the fetch of URL 1
raises, the cycle's trace stops at that request with no output line for
it, no GET for URL 2 and no sleep; if URL 2's fetch raises, URL 1's
output is already emitted but no sleep happens; and once a run has
aborted, no later cycle adds anything. -/
theorem abort_mid_cycle :
    (∀ (resp : Nat → FetchOutcome) (k : Nat) (e : ProgError),
      fetchStep url1 (resp k) = Except.error e →
      runCycleFrom resp k = ⟨[Event.request url1], some e, k + 1⟩) ∧
    (∀ (resp : Nat → FetchOutcome) (k : Nat) (l1 : OutputLine) (e : ProgError),
      fetchStep url1 (resp k) = Except.ok l1 →
      fetchStep url2 (resp (k + 1)) = Except.error e →
      runCycleFrom resp k =
        ⟨[Event.request url1, Event.output l1, Event.request url2], some e, k + 2⟩) ∧
    (∀ (resp : Nat → FetchOutcome) (n : Nat) (e : ProgError),
      (runCycles resp n).err = some e → runCycles resp (n + 1) = runCycles resp n) := by
  refine ⟨?_, ?_, ?_⟩
  · intro resp k e h1
    simp [runCycleFrom, urls, processUrls, h1]
  · intro resp k l1 e h1 h2
    simp [runCycleFrom, urls, processUrls, h1, h2]
  · intro resp n e he
    exact runCycles_succ_some he

/-- Witness for C9: a transport error on the very first request stops
the first cycle at that request, and the aborted run stays unchanged
over a further cycle. -/
theorem abort_mid_cycle_witness :
    runCycleFrom respErr 0 = ⟨[Event.request url1], some ProgError.transport, 1⟩ ∧
    runCycles respErr 2 = runCycles respErr 1 :=
  ⟨abort_mid_cycle.1 respErr 0 ProgError.transport rfl,
   abort_mid_cycle.2.2 respErr 1 ProgError.transport rfl⟩

/-- The first cycle of a run is exactly one `runCycleFrom` at request
index 0: nothing happens before it. -/
lemma runCycles_one (resp : Nat → FetchOutcome) :
    runCycles resp 1 =
      ⟨(runCycleFrom resp 0).trace, (runCycleFrom resp 0).err,
       (runCycleFrom resp 0).next⟩ := by
  show runCycles resp (0 + 1) = _
  rw [runCycles_succ_none (show (runCycles resp 0).err = none from rfl)]
  rfl

/-- C10: there is no initial delay: for any response stream and any run
of at least one cycle, the very first event is the GET request for the
first URL, and no `sleep 240` event can occur among the first four
events (the full pass over both URLs), so the sleep never precedes the
first pass. -/
theorem no_initial_delay :
    ∀ (resp : Nat → FetchOutcome) (n : Nat), 1 ≤ n →
      (runCycles resp n).trace.head? = some (Event.request url1) ∧
      (∀ i, i < 4 → (runCycles resp n).trace.get? i ≠ some (Event.sleep 240)) := by
  intro resp n hn
  have hsplit : n = 1 + (n - 1) := by omega
  cases hf1 : fetchStep url1 (resp 0) with
  | error e =>
    have hc : runCycleFrom resp 0 = ⟨[Event.request url1], some e, 1⟩ := by
      simp [runCycleFrom, urls, processUrls, hf1]
    have h1 : runCycles resp 1 = ⟨[Event.request url1], some e, 1⟩ := by
      rw [runCycles_one, hc]
    have hstuck : runCycles resp n = runCycles resp 1 := by
      rw [hsplit]
      exact runCycles_stuck (by rw [h1]) (n - 1)
    rw [hstuck, h1]
    refine ⟨rfl, ?_⟩
    intro i hi
    interval_cases i <;> simp
  | ok l1 =>
    cases hf2 : fetchStep url2 (resp 1) with
    | error e =>
      have hc : runCycleFrom resp 0 =
          ⟨[Event.request url1, Event.output l1, Event.request url2], some e, 2⟩ := by
        simp [runCycleFrom, urls, processUrls, hf1, hf2]
      have h1 : runCycles resp 1 =
          ⟨[Event.request url1, Event.output l1, Event.request url2], some e, 2⟩ := by
        rw [runCycles_one, hc]
      have hstuck : runCycles resp n = runCycles resp 1 := by
        rw [hsplit]
        exact runCycles_stuck (by rw [h1]) (n - 1)
      rw [hstuck, h1]
      refine ⟨rfl, ?_⟩
      intro i hi
      interval_cases i <;> simp
    | ok l2 =>
      have h2 : fetchStep url2 (resp (0 + 1)) = Except.ok l2 := hf2
      have hc := runCycleFrom_ok hf1 h2
      have h1 : runCycles resp 1 =
          ⟨[Event.request url1, Event.output l1, Event.request url2, Event.output l2,
            Event.sleep 240], none, 2⟩ := by
        rw [runCycles_one, hc]
      obtain ⟨s, hs⟩ := runCycles_extend_add resp 1 (n - 1)
      rw [← hsplit] at hs
      rw [hs, h1]
      refine ⟨rfl, ?_⟩
      intro i hi
      interval_cases i <;> simp

/-- Witness for C10: one cycle of 404 responses starts with the first
URL's request and has no sleep among its first four events. -/
theorem no_initial_delay_witness :
    (runCycles respConst404 1).trace.head? = some (Event.request url1) ∧
    (∀ i, i < 4 → (runCycles respConst404 1).trace.get? i ≠ some (Event.sleep 240)) :=
  no_initial_delay respConst404 1 (by decide)

end PingRank
